import Mathlib

/-!
Verification of the scheduled-booking lifecycle engine of the
RighttouchServerNew repository (`src/Utils/sendReminder.js`, which holds the
reminder composer `sendScheduledReminder` / `notifyCustomerOfRebroadcast` and
the five cron jobs `activateScheduledBookings`, `sendReminders24h`,
`sendReminders1h`, `sendReminders15min`, `handleNoShowSafety`).

The booking store is a `List Booking`; MongoDB `updateOne` / `findOneAndUpdate`
are modelled as functions that rewrite the first document matching the filter.
Each cron tick is a pure function from a store to a new store together with a
list of `Event`s recording the side-effect invocations the spec talks about
(Matching Service broadcast, customer rebroadcast notification, reminder
composer attempts, navigation socket emits). Timestamps are `Int` milliseconds,
matching JavaScript `Date.getTime()` arithmetic.
-/

namespace RightTouch

/-- Booking lifecycle states named in the schema and the cron jobs. -/
inductive Status
  | scheduled
  | requested
  | accepted
  | onTheWay
  | reached
  | inProgress
  | completed
deriving DecidableEq, Repr

/-- The `remindersSent` sub-document: three independent booleans. -/
structure Reminders where
  h24 : Bool
  h1 : Bool
  min15 : Bool
deriving DecidableEq, Repr

/-- A ServiceBooking document, restricted to the fields the five cron jobs
read or write. `addressSnapshot` is `(latitude, longitude)`; `location` is a
GeoJSON point, `(longitude, latitude)`. -/
structure Booking where
  id : Nat
  status : Status
  scheduledAt : Int
  technicianId : Option Nat
  customerId : Option Nat
  remindersSent : Reminders
  noShowAt : Option Int
  assignedAt : Option Int
  addressSnapshot : Option (Int × Int)
  location : Option (Int × Int)
deriving DecidableEq, Repr

/-- The three reminder stages. -/
inductive RKind
  | h24
  | h1
  | min15
deriving DecidableEq, Repr

/-- The string tag the cron jobs pass to `sendScheduledReminder`. -/
def typeString : RKind → String
  | .h24 => "h24"
  | .h1 => "h1"
  | .min15 => "min15"

/-- Read the reminder flag for a stage. -/
def getFlag : RKind → Reminders → Bool
  | .h24, r => r.h24
  | .h1, r => r.h1
  | .min15, r => r.min15

/-- `$set { "remindersSent.kind": true }`. -/
def setFlag : RKind → Reminders → Reminders
  | .h24, r => { r with h24 := true }
  | .h1, r => { r with h1 := true }
  | .min15, r => { r with min15 := true }

/-- The `(windowMin, windowMax)` offsets from `now`, in milliseconds, used by
the three reminder crons: `[+23h, +25h]`, `[+55min, +65min]`,
`[+10min, +20min]`. -/
def remWindow : RKind → Int × Int
  | .h24 => (23 * 60 * 60 * 1000, 25 * 60 * 60 * 1000)
  | .h1 => (55 * 60 * 1000, 65 * 60 * 1000)
  | .min15 => (10 * 60 * 1000, 20 * 60 * 1000)

/-- Delivery channels used by `sendScheduledReminder`. -/
inductive Delivery
  | push
  | socket
  | sms
deriving DecidableEq, Repr

/-- Result object returned by `sendScheduledReminder`, together with the list
of delivery attempts it made. -/
structure ReminderResult where
  success : Bool
  reason : Option String
  deliveries : List Delivery
deriving DecidableEq, Repr

/-- Environment of a tick: whether a Socket.IO handle was passed, and the
technician-profile lookup resolving a technician id to a mobile number
(`TechnicianProfile.findById(...).populate(...)`). -/
structure Env where
  io : Bool
  phoneOf : Nat → Option String

/-- The `messages[type]` lookup table of `sendScheduledReminder` (titles; the
bodies interpolate the technician name and the formatted date). `none` models
the JS `undefined` for an unknown key. -/
def reminderMessage (type : String) : Option String :=
  if type = "h24" then some "⏰ Reminder: Job Tomorrow"
  else if type = "h1" then some "🔔 Job in 1 Hour"
  else if type = "min15" then some "🚀 Job Starts in 15 Minutes!"
  else none

/-- `sendScheduledReminder(booking, type, io)` from `src/Utils/sendReminder.js`.
The JS body is wrapped in try/catch and always returns a result object, never
throws; here that totality is by construction. Steps, in source order: if no
technician is assigned return a no-op failure; resolve the technician phone
number; look up the message for `type`, returning a failure if unknown; then
attempt push, socket (only when an io handle exists) and SMS (only for `h1`
and `min15` and only when a phone number resolved; SMS failure is swallowed). -/
def sendScheduledReminder (env : Env) (b : Booking) (type : String) : ReminderResult :=
  match b.technicianId with
  | none => { success := false, reason := some "No technician assigned", deliveries := [] }
  | some tech =>
    let techPhone := env.phoneOf tech
    match reminderMessage type with
    | none => { success := false, reason := some "Unknown reminder type", deliveries := [] }
    | some _msg =>
      let pushD := [Delivery.push]
      let sockD := if env.io then [Delivery.socket] else []
      let smsD :=
        if techPhone.isSome && (type == "h1" || type == "min15") then [Delivery.sms]
        else []
      { success := true, reason := none, deliveries := pushD ++ sockD ++ smsD }

/-- Side-effect invocations recorded by a tick: a Matching Service broadcast
(`matchAndBroadcastBooking`), a customer rebroadcast notification
(`notifyCustomerOfRebroadcast`), a reminder-composer attempt with the success
flag of its result, and a `booking:navigate` socket emit. Each is tagged with
the booking id it was invoked for. -/
inductive Event
  | broadcast (bid : Nat)
  | notifyCustomer (bid : Nat)
  | reminderAttempt (bid : Nat) (kind : RKind) (ok : Bool)
  | navigate (bid : Nat)
deriving DecidableEq, Repr

/-- First document with the given `_id`, as Mongo resolves an id filter. -/
def getById : List Booking → Nat → Option Booking
  | [], _ => none
  | b :: rest, bid => if b.id = bid then some b else getById rest bid

/-- Number of occurrences of an event in a tick log. -/
def countEv : List Event → Event → Nat
  | [], _ => 0
  | e :: rest, x => (if e = x then 1 else 0) + countEv rest x

/-- Whether an event occurs in a tick log. -/
def hasEv (l : List Event) (x : Event) : Bool :=
  decide (countEv l x ≠ 0)

/-! ### CRON 1: activateScheduledBookings -/

/-- The window query of the activation cron:
`{ status: "scheduled", scheduledAt: { $lte: now + 15min } }`. -/
def activatePred (now : Int) (b : Booking) : Bool :=
  decide (b.status = Status.scheduled) &&
  decide (b.scheduledAt ≤ now + 15 * 60 * 1000)

/-- The filter of the activation cron's conditional `updateOne`:
`{ _id: booking._id, status: "scheduled" }` (the race guard). -/
def activateMatches (b : Booking) (bid : Nat) : Bool :=
  decide (b.id = bid) && decide (b.status = Status.scheduled)

/-- `updateOne({ _id, status: "scheduled" }, { $set: { status: "requested" } })`:
rewrite the first matching document; also report whether one matched. -/
def condUpdateActivate : List Booking → Nat → List Booking × Bool
  | [], _ => ([], false)
  | b :: rest, bid =>
    if activateMatches b bid then ({ b with status := Status.requested } :: rest, true)
    else
      let r := condUpdateActivate rest bid
      (b :: r.1, r.2)

/-- Per-booking body of the activation cron: the guarded status flip followed
by `matchAndBroadcastBooking` — the broadcast is issued whether or not the
conditional update matched a document. -/
def activateOne (store : List Booking) (bid : Nat) : List Booking × List Event :=
  let r := condUpdateActivate store bid
  (r.1, [Event.broadcast bid])

/-- Sequential processing of the activation cron's result batch. -/
def activateProcess : List Booking → List Booking → List Booking × List Event
  | [], store => (store, [])
  | b :: rest, store =>
    let s1 := activateOne store b.id
    let s2 := activateProcess rest s1.1
    (s2.1, s1.2 ++ s2.2)

/-- One tick of `activateScheduledBookings` at time `now`. -/
def activateScheduledBookings (now : Int) (store : List Booking) :
    List Booking × List Event :=
  activateProcess (store.filter (activatePred now)) store

/-! ### CRON 2-4: the three reminder jobs -/

/-- The window query shared by the three reminder crons: `status: "accepted"`,
`scheduledAt` in the stage's inclusive window, and the stage's
`remindersSent` flag false. -/
def remPred (kind : RKind) (now : Int) (b : Booking) : Bool :=
  decide (b.status = Status.accepted) &&
  decide (now + (remWindow kind).1 ≤ b.scheduledAt) &&
  decide (b.scheduledAt ≤ now + (remWindow kind).2) &&
  !(getFlag kind b.remindersSent)

/-- `updateOne({ _id }, { $set: { "remindersSent.kind": true } })`: the flag
update is unconditional — the filter checks the id only. -/
def uncondSetFlag (kind : RKind) (bid : Nat) : List Booking → List Booking
  | [] => []
  | b :: rest =>
    if b.id = bid then { b with remindersSent := setFlag kind b.remindersSent } :: rest
    else b :: uncondSetFlag kind bid rest

/-- JS truthiness of an optional number (`0` is falsy). -/
def jsTruthyNum : Option Int → Bool
  | none => false
  | some v => v != 0

/-- `booking.addressSnapshot?.latitude ?? booking.location?.coordinates?.[1]`. -/
def latOf (b : Booking) : Option Int :=
  (b.addressSnapshot.map Prod.fst) <|> (b.location.map Prod.snd)

/-- `booking.addressSnapshot?.longitude ?? booking.location?.coordinates?.[0]`. -/
def lngOf (b : Booking) : Option Int :=
  (b.addressSnapshot.map Prod.snd) <|> (b.location.map Prod.fst)

/-- The extra `booking:navigate` socket emit of the 15-minute cron, guarded by
`io`, a truthy technician id and truthy coordinates. -/
def navEvents (env : Env) (b : Booking) : List Event :=
  if env.io && b.technicianId.isSome && jsTruthyNum (latOf b) && jsTruthyNum (lngOf b) then
    [Event.navigate b.id]
  else []

/-- Per-booking body of a reminder cron: invoke the composer on the queried
snapshot, for the 15-minute stage emit the navigation socket event, then set
the stage flag with the unconditional update. The composer's returned result
is not inspected: the flag update runs for success and failure alike. -/
def reminderHandleOne (env : Env) (kind : RKind) (b : Booking) (store : List Booking) :
    List Booking × List Event :=
  let res := sendScheduledReminder env b (typeString kind)
  let nav := match kind with
    | .min15 => navEvents env b
    | _ => []
  (uncondSetFlag kind b.id store, Event.reminderAttempt b.id kind res.success :: nav)

/-- Sequential processing of a reminder cron's result batch. -/
def reminderProcess (env : Env) (kind : RKind) :
    List Booking → List Booking → List Booking × List Event
  | [], store => (store, [])
  | b :: rest, store =>
    let s1 := reminderHandleOne env kind b store
    let s2 := reminderProcess env kind rest s1.1
    (s2.1, s1.2 ++ s2.2)

/-- One tick of a reminder cron (stage `kind`) at time `now`. -/
def reminderTick (env : Env) (kind : RKind) (now : Int) (store : List Booking) :
    List Booking × List Event :=
  reminderProcess env kind (store.filter (remPred kind now)) store

/-- One tick of `sendReminders24h`. -/
def sendReminders24h (env : Env) (now : Int) (store : List Booking) :
    List Booking × List Event :=
  reminderTick env .h24 now store

/-- One tick of `sendReminders1h`. -/
def sendReminders1h (env : Env) (now : Int) (store : List Booking) :
    List Booking × List Event :=
  reminderTick env .h1 now store

/-- One tick of `sendReminders15min`. -/
def sendReminders15min (env : Env) (now : Int) (store : List Booking) :
    List Booking × List Event :=
  reminderTick env .min15 now store

/-! ### CRON 5: handleNoShowSafety -/

/-- The window query of the no-show cron: `status: "accepted"`,
`scheduledAt: { $lte: now - 30min }`, `noShowAt: null`,
`technicianId: { $ne: null }`. -/
def noShowPred (now : Int) (b : Booking) : Bool :=
  decide (b.status = Status.accepted) &&
  decide (b.scheduledAt ≤ now - 30 * 60 * 1000) &&
  decide (b.noShowAt = none) &&
  b.technicianId.isSome

/-- The filter of the no-show cron's `findOneAndUpdate`:
`{ _id, status: "accepted", noShowAt: null }` (the idempotency guard). -/
def noShowMatches (b : Booking) (bid : Nat) : Bool :=
  decide (b.id = bid) && decide (b.status = Status.accepted) &&
  decide (b.noShowAt = none)

/-- The `$set` of the no-show recovery: unassign the technician, revert to
`requested`, stamp `noShowAt`, reset the three reminder flags, clear
`assignedAt`. -/
def applyNoShowSet (now : Int) (b : Booking) : Booking :=
  { b with
    technicianId := none
    status := Status.requested
    noShowAt := some now
    remindersSent := { h24 := false, h1 := false, min15 := false }
    assignedAt := none }

/-- `findOneAndUpdate` of the no-show cron: rewrite the first document passing
the idempotency guard, reporting whether one matched. -/
def condUpdateNoShow (now : Int) : List Booking → Nat → List Booking × Bool
  | [], _ => ([], false)
  | b :: rest, bid =>
    if noShowMatches b bid then (applyNoShowSet now b :: rest, true)
    else
      let r := condUpdateNoShow now rest bid
      (b :: r.1, r.2)

/-- Per-booking body of the no-show cron: the guarded recovery update; on a
guard miss (`!updated`) the booking is skipped with no further action; on a
match, re-broadcast via the Matching Service and notify the customer. -/
def noShowHandleOne (now : Int) (store : List Booking) (bid : Nat) :
    List Booking × List Event :=
  let r := condUpdateNoShow now store bid
  (r.1, if r.2 then [Event.broadcast bid, Event.notifyCustomer bid] else [])

/-- Sequential processing of the no-show cron's result batch. -/
def noShowProcess (now : Int) : List Booking → List Booking → List Booking × List Event
  | [], store => (store, [])
  | b :: rest, store =>
    let s1 := noShowHandleOne now store b.id
    let s2 := noShowProcess now rest s1.1
    (s2.1, s1.2 ++ s2.2)

/-- One tick of `handleNoShowSafety` at time `now`. -/
def handleNoShowSafety (now : Int) (store : List Booking) :
    List Booking × List Event :=
  noShowProcess now (store.filter (noShowPred now)) store

/-! ### Tick traces over the five jobs -/

/-- One tick of one of the five cron jobs, at its own wall-clock time. -/
inductive Tick
  | activate (now : Int)
  | rem (env : Env) (kind : RKind) (now : Int)
  | noShow (now : Int)

/-- Run one tick against the store. -/
def applyTick : Tick → List Booking → List Booking × List Event
  | .activate now, store => activateScheduledBookings now store
  | .rem env kind now, store => reminderTick env kind now store
  | .noShow now, store => handleNoShowSafety now store

/-- The value of one reminder flag of the document with id `bid` (false when
no such document exists). -/
def flagOf (store : List Booking) (bid : Nat) (kind : RKind) : Bool :=
  match getById store bid with
  | some b => getFlag kind b.remindersSent
  | none => false

/-- The trajectory of one reminder flag along a tick sequence (initial value
first, then the value after each tick). -/
def flagTrace : List Tick → List Booking → Nat → RKind → List Bool
  | [], store, bid, kind => [flagOf store bid kind]
  | t :: ts, store, bid, kind =>
    flagOf store bid kind :: flagTrace ts (applyTick t store).1 bid kind

/-- Number of false-to-true transitions in a Boolean trajectory. -/
def countRises : List Bool → Nat
  | [] => 0
  | [_] => 0
  | a :: b :: rest => (if a = false ∧ b = true then 1 else 0) + countRises (b :: rest)

/-- Whether some tick of the sequence, run at its place in the sequence,
performs a successful no-show recovery of booking `bid` (the only operation of
the five jobs that resets reminder flags). The customer notification is
emitted exactly by a successful recovery. -/
def runResets : List Tick → List Booking → Nat → Bool
  | [], _, _ => false
  | t :: ts, store, bid =>
    hasEv (applyTick t store).2 (Event.notifyCustomer bid) ||
    runResets ts (applyTick t store).1 bid

/-! ### Example documents used to instantiate the theorems -/

/-- An accepted booking with a technician assigned, scheduled at epoch 0. -/
def exTech : Booking :=
  { id := 1, status := Status.accepted, scheduledAt := 0,
    technicianId := some 7, customerId := some 9,
    remindersSent := { h24 := false, h1 := false, min15 := false },
    noShowAt := none, assignedAt := some 0,
    addressSnapshot := some (12, 77), location := none }

/-- An environment with a live socket handle and a resolvable phone number. -/
def exEnv : Env := { io := true, phoneOf := fun _ => some "9999" }

/-- An accepted booking in the 24h window (relative to `now = 0`) whose
technician reference is unset. -/
def exNoTech : Booking :=
  { exTech with technicianId := none, scheduledAt := 23 * 60 * 60 * 1000 }

/-! ### Helper lemmas: event counting and id lookup -/

lemma countEv_append (l1 l2 : List Event) (x : Event) :
    countEv (l1 ++ l2) x = countEv l1 x + countEv l2 x := by
  induction l1 with
  | nil => simp [countEv]
  | cons e rest ih => simp [countEv, ih]; omega

lemma hasEv_append (l1 l2 : List Event) (x : Event) :
    hasEv (l1 ++ l2) x = (hasEv l1 x || hasEv l2 x) := by
  simp [hasEv, countEv_append]

lemma getById_mem_pairwise {store : List Booking} {b : Booking}
    (hPW : store.Pairwise (fun x y => x.id ≠ y.id)) (hb : b ∈ store) :
    getById store b.id = some b := by
  induction store with
  | nil => cases hb
  | cons c rest ih =>
    rcases List.mem_cons.mp hb with h | h
    · subst h
      simp [getById]
    · have hne : c.id ≠ b.id := (List.pairwise_cons.mp hPW).1 b h
      simp [getById, hne, ih (List.pairwise_cons.mp hPW).2 h]

/-! ### Lemmas about the activation conditional update -/

lemma condUpdateActivate_getById_ne {store : List Booking} {bid bid2 : Nat}
    (h : bid2 ≠ bid) :
    getById (condUpdateActivate store bid).1 bid2 = getById store bid2 := by
  induction store with
  | nil => rfl
  | cons c rest ih =>
    by_cases hm : activateMatches c bid = true
    · have hcid : c.id = bid := by
        have := hm
        simp [activateMatches] at this
        exact this.1
      have hne : ¬ c.id = bid2 := by
        rw [hcid]; exact fun hh => h hh.symm
      simp [condUpdateActivate, hm, getById, hne]
    · simp [condUpdateActivate, hm, getById]
      by_cases hc : c.id = bid2
      · simp [hc]
      · simp [hc, ih]

lemma condUpdateActivate_nomatch {store : List Booking} {bid : Nat}
    (h : ∀ b ∈ store, activateMatches b bid = false) :
    condUpdateActivate store bid = (store, false) := by
  induction store with
  | nil => rfl
  | cons c rest ih =>
    have hc := h c (List.mem_cons_self c rest)
    have hrest := ih (fun b hb => h b (List.mem_cons_of_mem c hb))
    simp [condUpdateActivate, hc, hrest]

lemma condUpdateActivate_hit {store : List Booking} {bid : Nat} {b : Booking}
    (hid : getById store bid = some b) (hs : b.status = Status.scheduled) :
    (condUpdateActivate store bid).2 = true ∧
    getById (condUpdateActivate store bid).1 bid
      = some { b with status := Status.requested } := by
  induction store with
  | nil => simp [getById] at hid
  | cons c rest ih =>
    by_cases hc : c.id = bid
    · have hcb : c = b := by
        simp [getById, hc] at hid
        exact hid
      subst hcb
      have hm : activateMatches c bid = true := by
        simp [activateMatches, hc, hs]
      simp [condUpdateActivate, hm, getById, hc]
    · simp [getById, hc] at hid
      have hm : activateMatches c bid = false := by
        simp [activateMatches, hc]
      have := ih hid
      simp [condUpdateActivate, hm, getById, hc, this.1, this.2]

/-! ### Lemmas about the no-show conditional update -/

lemma condUpdateNoShow_getById_ne {store : List Booking} {now : Int} {bid bid2 : Nat}
    (h : bid2 ≠ bid) :
    getById (condUpdateNoShow now store bid).1 bid2 = getById store bid2 := by
  induction store with
  | nil => rfl
  | cons c rest ih =>
    by_cases hm : noShowMatches c bid = true
    · have hcid : c.id = bid := by
        simp [noShowMatches] at hm
        exact hm.1.1
      have hne : ¬ c.id = bid2 := by
        rw [hcid]; exact fun hh => h hh.symm
      simp [condUpdateNoShow, hm, getById, applyNoShowSet, hne]
    · simp [condUpdateNoShow, hm, getById]
      by_cases hc : c.id = bid2
      · simp [hc]
      · simp [hc, ih]

lemma condUpdateNoShow_nomatch (now : Int) {store : List Booking} {bid : Nat}
    (h : ∀ b ∈ store, noShowMatches b bid = false) :
    condUpdateNoShow now store bid = (store, false) := by
  induction store with
  | nil => rfl
  | cons c rest ih =>
    have hc := h c (List.mem_cons_self c rest)
    have hrest := ih (fun b hb => h b (List.mem_cons_of_mem c hb))
    simp [condUpdateNoShow, hc, hrest]

lemma condUpdateNoShow_nomatch_keep {store : List Booking} {now : Int} {bid : Nat}
    (h : (condUpdateNoShow now store bid).2 = false) :
    (condUpdateNoShow now store bid).1 = store := by
  induction store with
  | nil => rfl
  | cons c rest ih =>
    by_cases hm : noShowMatches c bid = true
    · simp [condUpdateNoShow, hm] at h
    · simp [condUpdateNoShow, hm] at h ⊢
      exact ih h

lemma condUpdateNoShow_hit (now : Int) {store : List Booking} {bid : Nat} {b : Booking}
    (hid : getById store bid = some b) (hs : b.status = Status.accepted)
    (hn : b.noShowAt = none) :
    (condUpdateNoShow now store bid).2 = true ∧
    getById (condUpdateNoShow now store bid).1 bid = some (applyNoShowSet now b) := by
  induction store with
  | nil => simp [getById] at hid
  | cons c rest ih =>
    by_cases hc : c.id = bid
    · have hcb : c = b := by
        simp [getById, hc] at hid
        exact hid
      subst hcb
      have hm : noShowMatches c bid = true := by
        simp [noShowMatches, hc, hs, hn]
      simp [condUpdateNoShow, hm, getById, applyNoShowSet, hc]
    · simp [getById, hc] at hid
      have hm : noShowMatches c bid = false := by
        simp [noShowMatches, hc]
      have := ih hid
      simp [condUpdateNoShow, hm, getById, hc, this.1, this.2]

/-! ### Lemmas about the unconditional flag update -/

lemma uncondSetFlag_getById_ne {store : List Booking} {kind : RKind} {bid bid2 : Nat}
    (h : bid2 ≠ bid) :
    getById (uncondSetFlag kind bid store) bid2 = getById store bid2 := by
  induction store with
  | nil => rfl
  | cons c rest ih =>
    by_cases hc : c.id = bid
    · have hne : ¬ bid = bid2 := fun hh => h hh.symm
      simp [uncondSetFlag, hc, getById, hne]
    · simp [uncondSetFlag, hc, getById]
      by_cases hc2 : c.id = bid2
      · simp [hc2]
      · simp [hc2, ih]

lemma uncondSetFlag_hit (kind : RKind) {store : List Booking} {bid : Nat} {b : Booking}
    (hid : getById store bid = some b) :
    getById (uncondSetFlag kind bid store) bid
      = some { b with remindersSent := setFlag kind b.remindersSent } := by
  induction store with
  | nil => simp [getById] at hid
  | cons c rest ih =>
    by_cases hc : c.id = bid
    · have hcb : c = b := by
        simp [getById, hc] at hid
        exact hid
      subst hcb
      simp [uncondSetFlag, hc, getById]
    · simp [getById, hc] at hid
      simp [uncondSetFlag, hc, getById, ih hid]

lemma getFlag_setFlag_mono {kind : RKind} (kind2 : RKind) {r : Reminders}
    (h : getFlag kind r = true) : getFlag kind (setFlag kind2 r) = true := by
  cases kind <;> cases kind2 <;> simp [getFlag, setFlag] at h ⊢ <;> exact h

/-! ### Batch lemmas for the no-show job -/

lemma noShowProcess_frame (now : Int) {snaps : List Booking} (store : List Booking)
    {bid : Nat} (h : ∀ s ∈ snaps, s.id ≠ bid) :
    getById (noShowProcess now snaps store).1 bid = getById store bid ∧
    countEv (noShowProcess now snaps store).2 (Event.broadcast bid) = 0 ∧
    countEv (noShowProcess now snaps store).2 (Event.notifyCustomer bid) = 0 := by
  induction snaps generalizing store with
  | nil => simp [noShowProcess, countEv]
  | cons s rest ih =>
    have hs : s.id ≠ bid := h s (List.mem_cons_self s rest)
    have hrest := ih (noShowHandleOne now store s.id).1
      (fun x hx => h x (List.mem_cons_of_mem s hx))
    have hget : getById (noShowHandleOne now store s.id).1 bid = getById store bid := by
      simp [noShowHandleOne]
      exact condUpdateNoShow_getById_ne (fun hh => hs hh.symm)
    have hev1 : countEv (noShowHandleOne now store s.id).2 (Event.broadcast bid) = 0 := by
      simp [noShowHandleOne]
      by_cases hm : (condUpdateNoShow now store s.id).2 = true <;>
        simp [hm, countEv, hs]
    have hev2 : countEv (noShowHandleOne now store s.id).2 (Event.notifyCustomer bid) = 0 := by
      simp [noShowHandleOne]
      by_cases hm : (condUpdateNoShow now store s.id).2 = true <;>
        simp [hm, countEv, hs]
    refine ⟨?_, ?_, ?_⟩
    · simpa [noShowProcess, hget] using hrest.1
    · simp [noShowProcess, countEv_append, hev1, hrest.2.1]
    · simp [noShowProcess, countEv_append, hev2, hrest.2.2]

lemma noShowProcess_main (now : Int) {snaps store : List Booking} {b : Booking}
    (hmem : b ∈ snaps)
    (hids : snaps.Pairwise (fun x y => x.id ≠ y.id))
    (hid : getById store b.id = some b)
    (hs : b.status = Status.accepted) (hn : b.noShowAt = none) :
    getById (noShowProcess now snaps store).1 b.id = some (applyNoShowSet now b) ∧
    countEv (noShowProcess now snaps store).2 (Event.broadcast b.id) = 1 ∧
    countEv (noShowProcess now snaps store).2 (Event.notifyCustomer b.id) = 1 := by
  induction snaps generalizing store with
  | nil => cases hmem
  | cons s rest ih =>
    rcases List.mem_cons.mp hmem with hbs | hbr
    · subst hbs
      have hhit := condUpdateNoShow_hit now hid hs hn
      have hrestids : ∀ x ∈ rest, x.id ≠ b.id := by
        intro x hx
        exact fun hh => (List.pairwise_cons.mp hids).1 x hx hh.symm
      have hframe := noShowProcess_frame now
        (noShowHandleOne now store b.id).1 hrestids
      have hget1 : getById (noShowHandleOne now store b.id).1 b.id
          = some (applyNoShowSet now b) := by
        simpa [noShowHandleOne] using hhit.2
      have hev1 : (noShowHandleOne now store b.id).2
          = [Event.broadcast b.id, Event.notifyCustomer b.id] := by
        simp [noShowHandleOne, hhit.1]
      refine ⟨?_, ?_, ?_⟩
      · simpa [noShowProcess, hget1] using hframe.1
      · simp [noShowProcess, countEv_append, hev1, countEv, hframe.2.1]
      · simp [noShowProcess, countEv_append, hev1, countEv, hframe.2.2]
    · have hsne : s.id ≠ b.id := (List.pairwise_cons.mp hids).1 b hbr
      have hget : getById (noShowHandleOne now store s.id).1 b.id = getById store b.id := by
        simp [noShowHandleOne]
        exact condUpdateNoShow_getById_ne (fun hh => hsne hh.symm)
      have hev1 : countEv (noShowHandleOne now store s.id).2 (Event.broadcast b.id) = 0 := by
        simp [noShowHandleOne]
        by_cases hm : (condUpdateNoShow now store s.id).2 = true <;>
          simp [hm, countEv, hsne]
      have hev2 : countEv (noShowHandleOne now store s.id).2 (Event.notifyCustomer b.id) = 0 := by
        simp [noShowHandleOne]
        by_cases hm : (condUpdateNoShow now store s.id).2 = true <;>
          simp [hm, countEv, hsne]
      have hrec := ih hbr (List.pairwise_cons.mp hids).2 (hget ▸ hid)
      refine ⟨?_, ?_, ?_⟩
      · simpa [noShowProcess] using hrec.1
      · simp [noShowProcess, countEv_append, hev1, hrec.2.1]
      · simp [noShowProcess, countEv_append, hev2, hrec.2.2]

/-! ### Claim theorems -/

/-- C1: for every booking matching the no-show query (`status = accepted`,
`scheduledAt ≤ now − 30min`, `noShowAt` null, `technicianId` non-null), a
successful pass of `handleNoShowSafety` leaves it with `technicianId = null`,
`status = requested`, all three reminder flags false, `assignedAt = null`,
`noShowAt` set to the recovery time, and invokes the Matching Service
re-broadcast and the customer rebroadcast notification exactly once each for
that booking. -/
theorem noShow_recovery_correct (now : Int) (store : List Booking) (b : Booking)
    (hPW : store.Pairwise (fun x y => x.id ≠ y.id))
    (hb : b ∈ store) (hsel : noShowPred now b = true) :
    getById (handleNoShowSafety now store).1 b.id = some (applyNoShowSet now b) ∧
    (applyNoShowSet now b).technicianId = none ∧
    (applyNoShowSet now b).status = Status.requested ∧
    (applyNoShowSet now b).remindersSent
      = { h24 := false, h1 := false, min15 := false } ∧
    (applyNoShowSet now b).assignedAt = none ∧
    (applyNoShowSet now b).noShowAt = some now ∧
    countEv (handleNoShowSafety now store).2 (Event.broadcast b.id) = 1 ∧
    countEv (handleNoShowSafety now store).2 (Event.notifyCustomer b.id) = 1 := by
  have hsel' := hsel
  simp [noShowPred] at hsel'
  have hstat := hsel'.1.1.1
  have hnull := hsel'.1.2
  have hmem : b ∈ store.filter (noShowPred now) := List.mem_filter.mpr ⟨hb, hsel⟩
  have hids : (store.filter (noShowPred now)).Pairwise (fun x y => x.id ≠ y.id) :=
    hPW.filter _
  have hid : getById store b.id = some b := getById_mem_pairwise hPW hb
  have hmain := noShowProcess_main now hmem hids hid hstat hnull
  exact ⟨hmain.1, rfl, rfl, rfl, rfl, rfl, hmain.2.1, hmain.2.2⟩

theorem noShow_recovery_correct_witness :
    noShowPred 1860000 exTech = true ∧
    getById (handleNoShowSafety 1860000 [exTech]).1 exTech.id
      = some (applyNoShowSet 1860000 exTech) ∧
    countEv (handleNoShowSafety 1860000 [exTech]).2 (Event.broadcast exTech.id) = 1 ∧
    countEv (handleNoShowSafety 1860000 [exTech]).2 (Event.notifyCustomer exTech.id) = 1 := by
  have h := noShow_recovery_correct 1860000 [exTech] exTech
    (by decide) (by decide) (by decide)
  exact ⟨by decide, h.1, h.2.2.2.2.2.2.1, h.2.2.2.2.2.2.2⟩

/-- C5: when the no-show conditional update finds no record still matching
`status = accepted` with `noShowAt` null, the per-booking body of
`handleNoShowSafety` is a silent no-op: the store is unchanged and neither the
Matching Service re-broadcast nor the customer notification is invoked. -/
theorem noShow_guard_miss_silent (now : Int) (store : List Booking) (bid : Nat)
    (h : ∀ b ∈ store, noShowMatches b bid = false) :
    noShowHandleOne now store bid = (store, []) := by
  have hk := condUpdateNoShow_nomatch now h
  simp [noShowHandleOne, hk]

theorem noShow_guard_miss_silent_witness :
    (∀ b ∈ [{ exTech with noShowAt := some 5 }], noShowMatches b 1 = false) ∧
    noShowHandleOne 1860000 [{ exTech with noShowAt := some 5 }] 1
      = ([{ exTech with noShowAt := some 5 }], []) :=
  ⟨by decide, noShow_guard_miss_silent 1860000 _ 1 (by decide)⟩

/-! ### Batch lemmas for the activation job -/

lemma activateProcess_frame {snaps : List Booking} (store : List Booking) {bid : Nat}
    (h : ∀ s ∈ snaps, s.id ≠ bid) :
    getById (activateProcess snaps store).1 bid = getById store bid ∧
    countEv (activateProcess snaps store).2 (Event.broadcast bid) = 0 := by
  induction snaps generalizing store with
  | nil => simp [activateProcess, countEv]
  | cons s rest ih =>
    have hs : s.id ≠ bid := h s (List.mem_cons_self s rest)
    have hrest := ih (activateOne store s.id).1
      (fun x hx => h x (List.mem_cons_of_mem s hx))
    have hget : getById (activateOne store s.id).1 bid = getById store bid := by
      simp [activateOne]
      exact condUpdateActivate_getById_ne (fun hh => hs hh.symm)
    have hev : countEv (activateOne store s.id).2 (Event.broadcast bid) = 0 := by
      simp [activateOne, countEv, hs]
    refine ⟨?_, ?_⟩
    · simpa [activateProcess, hget] using hrest.1
    · simp [activateProcess, countEv_append, hev, hrest.2]

lemma activateProcess_main {snaps store : List Booking} {b : Booking}
    (hmem : b ∈ snaps)
    (hids : snaps.Pairwise (fun x y => x.id ≠ y.id))
    (hid : getById store b.id = some b)
    (hs : b.status = Status.scheduled) :
    getById (activateProcess snaps store).1 b.id
      = some { b with status := Status.requested } ∧
    countEv (activateProcess snaps store).2 (Event.broadcast b.id) = 1 := by
  induction snaps generalizing store with
  | nil => cases hmem
  | cons s rest ih =>
    rcases List.mem_cons.mp hmem with hbs | hbr
    · subst hbs
      have hhit := condUpdateActivate_hit hid hs
      have hrestids : ∀ x ∈ rest, x.id ≠ b.id := by
        intro x hx
        exact fun hh => (List.pairwise_cons.mp hids).1 x hx hh.symm
      have hframe := activateProcess_frame
        (activateOne store b.id).1 hrestids
      have hget1 : getById (activateOne store b.id).1 b.id
          = some { b with status := Status.requested } := by
        simpa [activateOne] using hhit.2
      have hframe2 : countEv (activateProcess rest (condUpdateActivate store b.id).1).2
          (Event.broadcast b.id) = 0 := by
        simpa [activateOne] using hframe.2
      refine ⟨?_, ?_⟩
      · simpa [activateProcess, hget1] using hframe.1
      · simp [activateProcess, countEv_append, activateOne, countEv, hframe2]
    · have hsne : s.id ≠ b.id := (List.pairwise_cons.mp hids).1 b hbr
      have hget : getById (activateOne store s.id).1 b.id = getById store b.id := by
        simp [activateOne]
        exact condUpdateActivate_getById_ne (fun hh => hsne hh.symm)
      have hev : countEv (activateOne store s.id).2 (Event.broadcast b.id) = 0 := by
        simp [activateOne, countEv, hsne]
      have hrec := ih hbr (List.pairwise_cons.mp hids).2 (hget ▸ hid)
      refine ⟨?_, ?_⟩
      · simpa [activateProcess] using hrec.1
      · simp [activateProcess, countEv_append, hev, hrec.2]

/-- C2: one tick of `activateScheduledBookings` with no induced failures sets
`status = requested` and broadcasts exactly once for every booking with
`status = scheduled` and `scheduledAt ≤ now + 15min` (inclusive upper bound,
no lower bound); a booking failing that predicate is not selected: it is left
unchanged and receives no broadcast. -/
theorem activation_tick_correct (now : Int) (store : List Booking) (b : Booking)
    (hPW : store.Pairwise (fun x y => x.id ≠ y.id)) (hb : b ∈ store) :
    (activatePred now b = true →
      getById (activateScheduledBookings now store).1 b.id
        = some { b with status := Status.requested } ∧
      countEv (activateScheduledBookings now store).2 (Event.broadcast b.id) = 1) ∧
    (activatePred now b = false →
      b ∉ store.filter (activatePred now) ∧
      getById (activateScheduledBookings now store).1 b.id = some b ∧
      countEv (activateScheduledBookings now store).2 (Event.broadcast b.id) = 0) := by
  have hid : getById store b.id = some b := getById_mem_pairwise hPW hb
  constructor
  · intro hsel
    have hstat : b.status = Status.scheduled := by
      simp [activatePred] at hsel
      exact hsel.1
    have hmem : b ∈ store.filter (activatePred now) := List.mem_filter.mpr ⟨hb, hsel⟩
    have hids : (store.filter (activatePred now)).Pairwise (fun x y => x.id ≠ y.id) :=
      hPW.filter _
    exact activateProcess_main hmem hids hid hstat
  · intro hsel
    have hnotmem : b ∉ store.filter (activatePred now) := by
      intro hmem
      rw [(List.mem_filter.mp hmem).2] at hsel
      cases hsel
    have hallne : ∀ s ∈ store.filter (activatePred now), s.id ≠ b.id := by
      intro s hsmem
      intro hh
      have hsstore := (List.mem_filter.mp hsmem).1
      by_cases hsb : s = b
      · exact hnotmem (hsb ▸ hsmem)
      · exact (hPW.forall (fun x y hxy => Ne.symm hxy) hsstore hb hsb) hh
    have hframe := activateProcess_frame store hallne
    refine ⟨hnotmem, ?_, ?_⟩
    · show getById (activateProcess (store.filter (activatePred now)) store).1 b.id = some b
      rw [hframe.1]
      exact hid
    · exact hframe.2

theorem activation_tick_correct_witness :
    activatePred 0 { exTech with status := Status.scheduled, technicianId := none } = true ∧
    getById (activateScheduledBookings 0
        [{ exTech with status := Status.scheduled, technicianId := none }]).1 1
      = some { exTech with status := Status.requested, technicianId := none } ∧
    countEv (activateScheduledBookings 0
        [{ exTech with status := Status.scheduled, technicianId := none }]).2
      (Event.broadcast 1) = 1 := by
  have h := (activation_tick_correct 0
    [{ exTech with status := Status.scheduled, technicianId := none }]
    { exTech with status := Status.scheduled, technicianId := none }
    (by decide) (by decide)).1 (by decide)
  exact ⟨by decide, h.1, h.2⟩

lemma condUpdateActivate_nomatch_in_result {store : List Booking} {bid : Nat} {b : Booking}
    (hPW : store.Pairwise (fun x y => x.id ≠ y.id))
    (hid : getById store bid = some b) (hs : b.status = Status.scheduled) :
    ∀ c ∈ (condUpdateActivate store bid).1, activateMatches c bid = false := by
  induction store with
  | nil => simp [condUpdateActivate]
  | cons c rest ih =>
    by_cases hc : c.id = bid
    · have hcb : c = b := by
        simp [getById, hc] at hid
        exact hid
      subst hcb
      have hm : activateMatches c bid = true := by
        simp [activateMatches, hc, hs]
      intro d hd
      simp [condUpdateActivate, hm] at hd
      rcases hd with hd | hd
      · subst hd
        simp [activateMatches]
      · have hne : c.id ≠ d.id := (List.pairwise_cons.mp hPW).1 d hd
        simp [activateMatches]
        intro hdid
        exact absurd (hdid.trans hc.symm).symm hne
    · simp [getById, hc] at hid
      have hm : activateMatches c bid = false := by
        simp [activateMatches, hc]
      intro d hd
      simp [condUpdateActivate, hm] at hd
      rcases hd with hd | hd
      · subst hd
        exact hm
      · exact ih (List.pairwise_cons.mp hPW).2 hid d hd

/-- C7: the activation status flip is a guarded compare-and-set. Applying it
twice to the same booking id (two racing scheduler instances) gives exactly
one successful `scheduled → requested` transition and one no-match no-op: the
second application reports no match and changes nothing, and the stored
document ends as `requested` — no double transition, no lost update. -/
theorem activation_cas_idempotent (store : List Booking) (bid : Nat) (b : Booking)
    (hPW : store.Pairwise (fun x y => x.id ≠ y.id))
    (hid : getById store bid = some b) (hs : b.status = Status.scheduled) :
    (condUpdateActivate store bid).2 = true ∧
    (condUpdateActivate (condUpdateActivate store bid).1 bid).2 = false ∧
    (condUpdateActivate (condUpdateActivate store bid).1 bid).1
      = (condUpdateActivate store bid).1 ∧
    getById (condUpdateActivate (condUpdateActivate store bid).1 bid).1 bid
      = some { b with status := Status.requested } := by
  have hhit := condUpdateActivate_hit hid hs
  have hnm := condUpdateActivate_nomatch_in_result hPW hid hs
  have hsecond := condUpdateActivate_nomatch hnm
  refine ⟨hhit.1, ?_, ?_, ?_⟩
  · rw [hsecond]
  · rw [hsecond]
  · rw [hsecond]
    exact hhit.2

theorem activation_cas_idempotent_witness :
    getById [{ exTech with status := Status.scheduled }] 1
      = some { exTech with status := Status.scheduled } ∧
    (condUpdateActivate [{ exTech with status := Status.scheduled }] 1).2 = true ∧
    (condUpdateActivate
      (condUpdateActivate [{ exTech with status := Status.scheduled }] 1).1 1).2 = false := by
  have h := activation_cas_idempotent [{ exTech with status := Status.scheduled }] 1
    { exTech with status := Status.scheduled } (by decide) (by decide) (by decide)
  exact ⟨by decide, h.1, h.2.1⟩

/-- C9: in the activation job the Matching Service broadcast is not guarded by
the compare-and-set: the per-booking body still emits the broadcast when the
conditional update matched no document (for example when another instance
already flipped the booking to `requested`), so duplicate broadcasts across
racing instances are possible. -/
theorem activation_broadcast_unguarded (store : List Booking) (bid : Nat)
    (h : ∀ b ∈ store, activateMatches b bid = false) :
    activateOne store bid = (store, [Event.broadcast bid]) := by
  have hk := condUpdateActivate_nomatch h
  simp [activateOne, hk]

theorem activation_broadcast_unguarded_witness :
    (∀ b ∈ [{ exTech with status := Status.requested }], activateMatches b 1 = false) ∧
    activateOne [{ exTech with status := Status.requested }] 1
      = ([{ exTech with status := Status.requested }], [Event.broadcast 1]) :=
  ⟨by decide, activation_broadcast_unguarded _ 1 (by decide)⟩

/-! ### Batch lemmas for the reminder jobs -/

lemma countEv_reminderHandleOne_ne (env : Env) (kind : RKind) (store1 : List Booking)
    (c : Booking) (bid : Nat) (k : RKind) (ok : Bool)
    (hne : c.id ≠ bid) :
    countEv (reminderHandleOne env kind c store1).2 (Event.reminderAttempt bid k ok) = 0 := by
  cases kind
  case min15 =>
    simp [reminderHandleOne, countEv, navEvents, hne]
    split <;> simp [countEv]
  all_goals simp [reminderHandleOne, countEv, navEvents, hne]

lemma getFlag_setFlag_self (kind : RKind) (r : Reminders) :
    getFlag kind (setFlag kind r) = true := by
  cases kind <;> simp [getFlag, setFlag]

lemma reminderProcess_frame (env : Env) (kind : RKind) {snaps : List Booking}
    (store : List Booking) {bid : Nat} (h : ∀ s ∈ snaps, s.id ≠ bid) :
    getById (reminderProcess env kind snaps store).1 bid = getById store bid ∧
    ∀ k ok, countEv (reminderProcess env kind snaps store).2
      (Event.reminderAttempt bid k ok) = 0 := by
  induction snaps generalizing store with
  | nil => simp [reminderProcess, countEv]
  | cons s rest ih =>
    have hs : s.id ≠ bid := h s (List.mem_cons_self s rest)
    have hrest := ih (reminderHandleOne env kind s store).1
      (fun x hx => h x (List.mem_cons_of_mem s hx))
    have hget : getById (reminderHandleOne env kind s store).1 bid = getById store bid := by
      simp [reminderHandleOne]
      exact uncondSetFlag_getById_ne (fun hh => hs hh.symm)
    refine ⟨?_, ?_⟩
    · simpa [reminderProcess, hget] using hrest.1
    · intro k ok
      have hev := countEv_reminderHandleOne_ne env kind store s bid k ok hs
      simp [reminderProcess, countEv_append, hev, hrest.2 k ok]

lemma reminderProcess_main (env : Env) (kind : RKind) {snaps store : List Booking}
    {b : Booking}
    (hmem : b ∈ snaps)
    (hids : snaps.Pairwise (fun x y => x.id ≠ y.id))
    (hid : getById store b.id = some b) :
    getById (reminderProcess env kind snaps store).1 b.id
      = some { b with remindersSent := setFlag kind b.remindersSent } ∧
    countEv (reminderProcess env kind snaps store).2
      (Event.reminderAttempt b.id kind
        (sendScheduledReminder env b (typeString kind)).success) = 1 := by
  induction snaps generalizing store with
  | nil => cases hmem
  | cons s rest ih =>
    rcases List.mem_cons.mp hmem with hbs | hbr
    · subst hbs
      have hrestids : ∀ x ∈ rest, x.id ≠ b.id := by
        intro x hx
        exact fun hh => (List.pairwise_cons.mp hids).1 x hx hh.symm
      have hframe := reminderProcess_frame env kind
        (reminderHandleOne env kind b store).1 hrestids
      have hget1 : getById (reminderHandleOne env kind b store).1 b.id
          = some { b with remindersSent := setFlag kind b.remindersSent } := by
        simpa [reminderHandleOne] using uncondSetFlag_hit kind hid
      have hev1 : countEv (reminderHandleOne env kind b store).2
          (Event.reminderAttempt b.id kind
            (sendScheduledReminder env b (typeString kind)).success) = 1 := by
        cases kind <;>
          simp [reminderHandleOne, countEv, navEvents] <;>
          split <;> simp [countEv]
      refine ⟨?_, ?_⟩
      · simpa [reminderProcess, hget1] using hframe.1
      · simp [reminderProcess, countEv_append, hev1,
          hframe.2 kind (sendScheduledReminder env b (typeString kind)).success]
    · have hsne : s.id ≠ b.id := (List.pairwise_cons.mp hids).1 b hbr
      have hget : getById (reminderHandleOne env kind s store).1 b.id
          = getById store b.id := by
        simp [reminderHandleOne]
        exact uncondSetFlag_getById_ne (fun hh => hsne hh.symm)
      have hev := countEv_reminderHandleOne_ne env kind store s b.id
        kind (sendScheduledReminder env b (typeString kind)).success hsne
      have hrec := ih hbr (List.pairwise_cons.mp hids).2 (hget ▸ hid)
      refine ⟨?_, ?_⟩
      · simpa [reminderProcess] using hrec.1
      · simp [reminderProcess, countEv_append, hev, hrec.2]

/-- C4: a reminder job selects a booking exactly when `status = accepted`, the
corresponding `remindersSent` flag is false, and `scheduledAt` lies inside the
job's window with both edges inclusive: `[now+23h, now+25h]` for the 24h job,
`[now+55min, now+65min]` for the 1h job, `[now+10min, now+20min]` for the
15min job. In particular `scheduledAt = now + 23h` exactly is selected by the
24h job and `scheduledAt = now + 25h + 1s` is not. -/
theorem reminder_selection_iff (now : Int) (store : List Booking) (b : Booking) :
    (b ∈ store.filter (remPred RKind.h24 now) ↔
      b ∈ store ∧ b.status = Status.accepted ∧ b.remindersSent.h24 = false ∧
      now + 23 * 60 * 60 * 1000 ≤ b.scheduledAt ∧
      b.scheduledAt ≤ now + 25 * 60 * 60 * 1000) ∧
    (b ∈ store.filter (remPred RKind.h1 now) ↔
      b ∈ store ∧ b.status = Status.accepted ∧ b.remindersSent.h1 = false ∧
      now + 55 * 60 * 1000 ≤ b.scheduledAt ∧
      b.scheduledAt ≤ now + 65 * 60 * 1000) ∧
    (b ∈ store.filter (remPred RKind.min15 now) ↔
      b ∈ store ∧ b.status = Status.accepted ∧ b.remindersSent.min15 = false ∧
      now + 10 * 60 * 1000 ≤ b.scheduledAt ∧
      b.scheduledAt ≤ now + 20 * 60 * 1000) := by
  refine ⟨?_, ?_, ?_⟩ <;>
    simp [List.mem_filter, remPred, remWindow, getFlag] <;>
    tauto

/-- C6: in every reminder job, after invoking the Reminder Composer for a
selected booking the corresponding flag is set to true by the unconditional
update regardless of the composer's reported success — in particular also for
the no-technician-assigned failure, so a delivery failure suppresses that
stage for the rest of the assignment. The composer is invoked exactly once,
with the result's success value recorded. -/
theorem reminder_flag_set_unconditionally (env : Env) (kind : RKind) (now : Int)
    (store : List Booking) (b : Booking)
    (hPW : store.Pairwise (fun x y => x.id ≠ y.id))
    (hb : b ∈ store) (hsel : remPred kind now b = true) :
    flagOf (reminderTick env kind now store).1 b.id kind = true ∧
    countEv (reminderTick env kind now store).2
      (Event.reminderAttempt b.id kind
        (sendScheduledReminder env b (typeString kind)).success) = 1 ∧
    (b.technicianId = none →
      (sendScheduledReminder env b (typeString kind)).success = false) := by
  have hid : getById store b.id = some b := getById_mem_pairwise hPW hb
  have hmem : b ∈ store.filter (remPred kind now) := List.mem_filter.mpr ⟨hb, hsel⟩
  have hids : (store.filter (remPred kind now)).Pairwise (fun x y => x.id ≠ y.id) :=
    hPW.filter _
  have hmain := reminderProcess_main env kind hmem hids hid
  refine ⟨?_, hmain.2, ?_⟩
  · show flagOf (reminderProcess env kind (store.filter (remPred kind now)) store).1
      b.id kind = true
    simp [flagOf, hmain.1, getFlag_setFlag_self]
  · intro hnone
    simp [sendScheduledReminder, hnone]

theorem reminder_flag_set_unconditionally_witness :
    remPred RKind.h24 0 exNoTech = true ∧
    flagOf (reminderTick exEnv RKind.h24 0 [exNoTech]).1 1 RKind.h24 = true ∧
    (sendScheduledReminder exEnv exNoTech (typeString RKind.h24)).success = false := by
  have h := reminder_flag_set_unconditionally exEnv RKind.h24 0
    [exNoTech] exNoTech (by decide) (by decide) (by decide)
  exact ⟨by decide, h.1, h.2.2 rfl⟩

/-- C8: `sendScheduledReminder` never raises to its caller — it is a total
function returning a success/failure result — and when the booking has no
technician assigned it returns the no-op failure
`{ success: false, reason: "No technician assigned" }` without attempting any
delivery. -/
theorem sendScheduledReminder_no_technician (env : Env) (b : Booking) (type : String)
    (h : b.technicianId = none) :
    sendScheduledReminder env b type
      = { success := false, reason := some "No technician assigned",
          deliveries := [] } := by
  simp [sendScheduledReminder, h]

theorem sendScheduledReminder_no_technician_witness :
    ({ exTech with technicianId := none } : Booking).technicianId = none ∧
    sendScheduledReminder exEnv { exTech with technicianId := none } "h1"
      = { success := false, reason := some "No technician assigned",
          deliveries := [] } :=
  ⟨rfl, sendScheduledReminder_no_technician exEnv _ "h1" rfl⟩

/-- C10: for a booking with a technician assigned, `sendScheduledReminder`
called with any reminder type outside h24/h1/min15 returns the failure
`{ success: false, reason: "Unknown reminder type" }` before any push, socket
or SMS delivery is attempted (empty delivery list), and does not throw. -/
theorem sendScheduledReminder_unknown_type (env : Env) (b : Booking) (type : String)
    (tech : Nat) (h : b.technicianId = some tech)
    (h1 : type ≠ "h24") (h2 : type ≠ "h1") (h3 : type ≠ "min15") :
    sendScheduledReminder env b type
      = { success := false, reason := some "Unknown reminder type",
          deliveries := [] } := by
  simp [sendScheduledReminder, h, reminderMessage, h1, h2, h3]

theorem sendScheduledReminder_unknown_type_witness :
    exTech.technicianId = some 7 ∧
    sendScheduledReminder exEnv exTech "h2"
      = { success := false, reason := some "Unknown reminder type",
          deliveries := [] } :=
  ⟨rfl, sendScheduledReminder_unknown_type exEnv exTech "h2" 7 rfl
    (by decide) (by decide) (by decide)⟩

/-! ### Flag-monotonicity lemmas for the C3 trace invariant -/

lemma condUpdateActivate_remSent (store : List Booking) (bid bid2 : Nat) :
    (getById (condUpdateActivate store bid).1 bid2).map Booking.remindersSent
      = (getById store bid2).map Booking.remindersSent := by
  induction store with
  | nil => rfl
  | cons c rest ih =>
    by_cases hm : activateMatches c bid = true
    · by_cases hc : c.id = bid2 <;> simp [condUpdateActivate, hm, getById, hc]
    · by_cases hc : c.id = bid2 <;> simp [condUpdateActivate, hm, getById, hc, ih]

lemma activateProcess_flagOf (snaps store : List Booking) (bid : Nat) (kind : RKind) :
    flagOf (activateProcess snaps store).1 bid kind = flagOf store bid kind := by
  induction snaps generalizing store with
  | nil => simp [activateProcess]
  | cons s rest ih =>
    have hstep : flagOf (activateOne store s.id).1 bid kind = flagOf store bid kind := by
      have h := condUpdateActivate_remSent store s.id bid
      simp [activateOne, flagOf]
      cases hg : getById (condUpdateActivate store s.id).1 bid <;>
        cases hg2 : getById store bid <;>
        simp [hg, hg2] at h ⊢ <;> simp [h]
    calc flagOf (activateProcess (s :: rest) store).1 bid kind
        = flagOf (activateProcess rest (activateOne store s.id).1).1 bid kind := by
          simp [activateProcess]
      _ = flagOf (activateOne store s.id).1 bid kind := ih (activateOne store s.id).1
      _ = flagOf store bid kind := hstep

lemma uncondSetFlag_flag_mono {store : List Booking} {kind kind2 : RKind} {bid bid2 : Nat}
    (h : flagOf store bid kind = true) :
    flagOf (uncondSetFlag kind2 bid2 store) bid kind = true := by
  induction store with
  | nil => simp [flagOf, getById] at h
  | cons c rest ih =>
    by_cases hc : c.id = bid
    · have hflag : getFlag kind c.remindersSent = true := by
        simpa [flagOf, getById, hc] using h
      by_cases hc2 : c.id = bid2
      · have hbb : bid2 = bid := hc2.symm.trans hc
        have hmono := getFlag_setFlag_mono kind2 hflag
        simp [uncondSetFlag, hc2, flagOf, getById, hbb, hc, hmono]
      · have hbb : ¬ bid = bid2 := fun hh => hc2 (hc.trans hh)
        simp [uncondSetFlag, hc2, flagOf, getById, hc, hbb, hflag]
    · have hrest : flagOf rest bid kind = true := by
        simpa [flagOf, getById, hc] using h
      by_cases hc2 : c.id = bid2
      · have hbb : ¬ bid2 = bid := fun hh => hc (hc2.trans hh)
        simp [uncondSetFlag, hc2, flagOf, getById, hbb]
        simpa [flagOf] using hrest
      · have hres := ih hrest
        simp [uncondSetFlag, hc2, flagOf, getById, hc]
        simpa [flagOf] using hres

lemma reminderProcess_flag_mono (env : Env) (kind2 : RKind) (snaps store : List Booking)
    {bid : Nat} {kind : RKind}
    (h : flagOf store bid kind = true) :
    flagOf (reminderProcess env kind2 snaps store).1 bid kind = true := by
  induction snaps generalizing store with
  | nil => simpa [reminderProcess] using h
  | cons s rest ih =>
    have hstep : flagOf (reminderHandleOne env kind2 s store).1 bid kind = true := by
      simp [reminderHandleOne]
      exact uncondSetFlag_flag_mono h
    have := ih (reminderHandleOne env kind2 s store).1 hstep
    simpa [reminderProcess] using this

lemma noShowProcess_no_reset {now : Int} {snaps store : List Booking} {bid : Nat}
    (h : hasEv (noShowProcess now snaps store).2 (Event.notifyCustomer bid) = false) :
    getById (noShowProcess now snaps store).1 bid = getById store bid := by
  induction snaps generalizing store with
  | nil => simp [noShowProcess]
  | cons s rest ih =>
    have hsplit : hasEv (noShowHandleOne now store s.id).2 (Event.notifyCustomer bid) = false ∧
        hasEv (noShowProcess now rest (noShowHandleOne now store s.id).1).2
          (Event.notifyCustomer bid) = false := by
      have := h
      simp [noShowProcess, hasEv_append] at this
      simpa [hasEv] using this
    by_cases hc : s.id = bid
    · subst hc
      have hm : (condUpdateNoShow now store s.id).2 = false := by
        by_contra hmm
        have hmt : (condUpdateNoShow now store s.id).2 = true := by
          cases hx : (condUpdateNoShow now store s.id).2
          · exact absurd hx hmm
          · rfl
        have hone := hsplit.1
        simp [noShowHandleOne, hmt, hasEv, countEv] at hone
      have hkeep := condUpdateNoShow_nomatch_keep hm
      have hget : (noShowHandleOne now store s.id).1 = store := by
        simp [noShowHandleOne, hkeep]
      rw [show noShowProcess now (s :: rest) store
          = ((noShowProcess now rest (noShowHandleOne now store s.id).1).1,
             (noShowHandleOne now store s.id).2
               ++ (noShowProcess now rest (noShowHandleOne now store s.id).1).2)
        from rfl]
      rw [show ((noShowProcess now rest (noShowHandleOne now store s.id).1).1,
             (noShowHandleOne now store s.id).2
               ++ (noShowProcess now rest (noShowHandleOne now store s.id).1).2).1
          = (noShowProcess now rest (noShowHandleOne now store s.id).1).1 from rfl]
      rw [ih hsplit.2, hget]
    · have hget : getById (noShowHandleOne now store s.id).1 bid = getById store bid := by
        simp [noShowHandleOne]
        exact condUpdateNoShow_getById_ne (fun hh => hc hh.symm)
      have := ih hsplit.2
      calc getById (noShowProcess now (s :: rest) store).1 bid
          = getById (noShowProcess now rest (noShowHandleOne now store s.id).1).1 bid := by
            simp [noShowProcess]
        _ = getById (noShowHandleOne now store s.id).1 bid := this
        _ = getById store bid := hget

lemma applyTick_flag_mono (t : Tick) (store : List Booking) (bid : Nat) (kind : RKind)
    (h : hasEv (applyTick t store).2 (Event.notifyCustomer bid) = false)
    (hf : flagOf store bid kind = true) :
    flagOf (applyTick t store).1 bid kind = true := by
  cases t with
  | activate now =>
    have := activateProcess_flagOf
      (store.filter (activatePred now)) store bid kind
    simpa [applyTick, activateScheduledBookings, this] using hf
  | rem env kind2 now =>
    have := reminderProcess_flag_mono env kind2
      (store.filter (remPred kind2 now)) store hf
    simpa [applyTick, reminderTick] using this
  | noShow now =>
    have hres : getById (noShowProcess now (store.filter (noShowPred now)) store).1 bid
        = getById store bid := by
      apply noShowProcess_no_reset
      simpa [applyTick, handleNoShowSafety] using h
    show flagOf (handleNoShowSafety now store).1 bid kind = true
    simpa [handleNoShowSafety, flagOf, hres] using hf

lemma flagTrace_head (ts : List Tick) (st : List Booking) (bid : Nat) (kind : RKind) :
    ∃ rest, flagTrace ts st bid kind = flagOf st bid kind :: rest := by
  cases ts <;> exact ⟨_, rfl⟩

lemma flagTrace_once_aux (ticks : List Tick) (store : List Booking) (bid : Nat)
    (kind : RKind) (hnr : runResets ticks store bid = false) :
    countRises (flagTrace ticks store bid kind) ≤ 1 ∧
    (flagOf store bid kind = true → countRises (flagTrace ticks store bid kind) = 0) := by
  induction ticks generalizing store with
  | nil => simp [flagTrace, countRises]
  | cons t ts ih =>
    have hnr' : hasEv (applyTick t store).2 (Event.notifyCustomer bid) = false ∧
        runResets ts (applyTick t store).1 bid = false := by
      have := hnr
      simp [runResets] at this
      exact ⟨by simpa [hasEv] using this.1, this.2⟩
    have IH := ih (applyTick t store).1 hnr'.2
    obtain ⟨rest, hr⟩ := flagTrace_head ts (applyTick t store).1 bid kind
    by_cases hx : flagOf store bid kind = true
    · have hy : flagOf (applyTick t store).1 bid kind = true :=
        applyTick_flag_mono t store bid kind hnr'.1 hx
      have h0 : countRises (flagTrace ts (applyTick t store).1 bid kind) = 0 := IH.2 hy
      constructor
      · simp [flagTrace, hr, countRises, hx, hy] at h0 ⊢
        omega
      · intro _
        simp [flagTrace, hr, countRises, hx, hy] at h0 ⊢
        omega
    · have hx' : flagOf store bid kind = false := by
        cases hv : flagOf store bid kind
        · rfl
        · exact absurd hv hx
      constructor
      · by_cases hy : flagOf (applyTick t store).1 bid kind = true
        · have h0 : countRises (flagTrace ts (applyTick t store).1 bid kind) = 0 := IH.2 hy
          simp [flagTrace, hr, countRises, hx', hy] at h0 ⊢
          omega
        · have hy' : flagOf (applyTick t store).1 bid kind = false := by
            cases hv : flagOf (applyTick t store).1 bid kind
            · rfl
            · exact absurd hv hy
          have h1 := IH.1
          simp [flagTrace, hr, countRises, hx', hy'] at h1 ⊢
          omega
      · intro hcontra
        exact absurd hcontra hx

/-- C3: for every booking and reminder stage, under any sequence of ticks of
the five jobs containing no successful no-show recovery of that booking (the
no-show recovery being the only operation that resets the flags to false, and
a reminder job never selecting a booking whose flag is already true), the
stage's `remindersSent` flag transitions from false to true at most once. -/
theorem reminder_flag_once_between_resets (ticks : List Tick) (store : List Booking)
    (bid : Nat) (kind : RKind)
    (hnr : runResets ticks store bid = false) :
    countRises (flagTrace ticks store bid kind) ≤ 1 :=
  (flagTrace_once_aux ticks store bid kind hnr).1

theorem reminder_flag_once_between_resets_witness :
    runResets
      [Tick.rem exEnv RKind.h24 0, Tick.rem exEnv RKind.h24 300000, Tick.activate 0]
      [{ exTech with scheduledAt := 23 * 60 * 60 * 1000 }] 1 = false ∧
    countRises (flagTrace
      [Tick.rem exEnv RKind.h24 0, Tick.rem exEnv RKind.h24 300000, Tick.activate 0]
      [{ exTech with scheduledAt := 23 * 60 * 60 * 1000 }] 1 RKind.h24) ≤ 1 :=
  ⟨by decide, reminder_flag_once_between_resets _ _ 1 RKind.h24 (by decide)⟩

end RightTouch
